import Mathlib

/-!
Verification of `src/InputWritr/InputWritr.js`, the input-dispatch middleman
of FullScreenMario-JSON.  The module is a closure holding mutable variables
(`triggers`, `aliases`, `history`, `histories`, `starting_time`,
`event_information`, `recording`); we embed that closure state as the
structure `IWState` below and each public function as a state transformer.

Modelling conventions:
- JavaScript objects are insertion-ordered association lists (`JMap`); a
  property can be present with the value `undefined`, so trigger groups map
  keys to `Option Handler` and a lookup returns `Option (Option Handler)`
  (outer `none` = key absent, `some none` = key present holding `undefined`).
- Handler functions are opaque references compared by identity, modelled as
  `Nat` ids; invoking one is recorded as an `Effect.invoke` carrying the
  handler and the `event_information` it receives.  `console.warn`, throwing
  a `TypeError`, `preventDefault` and `setTimeout` registrations are likewise
  recorded as effects.
- History objects are aliased (e.g. `saveHistory` stores the same object that
  later dispatches keep mutating), so the embedding keeps a heap `store` of
  history objects and the variables hold references (indices) into it.
- The clock (`performance.now()` etc.) is an external collaborator returning
  fractional milliseconds; each clock read is passed in as a rational
  parameter `now`, and `Math.round` is `⌊q + 1/2⌋`.
- `for (k in obj)` enumeration is modelled as the insertion order of the
  association list (the configurations used in the theorems below have only
  non-numeric top-level keys, for which this matches JavaScript).
-/

/-- A JavaScript object modelled as an insertion-ordered association list. -/
abbrev JMap (κ α : Type) := List (κ × α)

/-- Property read: `some v` when the key is present, `none` when absent. -/
def jget {κ α : Type} [DecidableEq κ] : JMap κ α → κ → Option α
  | [], _ => none
  | p :: rest, k => if p.1 = k then some p.2 else jget rest k

/-- Property write: replaces the value in place when the key exists,
appends a new binding otherwise (JavaScript assignment semantics). -/
def jset {κ α : Type} [DecidableEq κ] : JMap κ α → κ → α → JMap κ α
  | [], k, v => [(k, v)]
  | p :: rest, k, v => if p.1 = k then (k, v) :: rest else p :: jset rest k v

/-- JavaScript `Math.round` on a fractional-millisecond clock reading: round half up. -/
def jsRound (q : ℚ) : ℤ := ⌊q + 1/2⌋

/-- An opaque handler function reference, compared by identity. -/
abbrev Handler := Nat

/-- One trigger group: alias key (label or stringified raw code) to handler.
The value `none` models a key that is present but holds `undefined`. -/
abbrev TrigGroup := JMap String (Option Handler)

/-- The `triggers` object: trigger-group name to group. -/
abbrev Triggers := JMap String TrigGroup

/-- A history object: `Math.round`ed timestamp to the `[trigger, alias]`
pair stored by a recorded dispatch. -/
abbrev Hist := JMap Int (String × String)

/-- The closure produced by `makeEventCall(info)`: when called it runs
`callEvent(info[0], info[1])`. -/
structure EvCall where
  event : String
  keycode : String
deriving DecidableEq

/-- The first argument of a `setTimeout` registration: the source passes
either a function or (as `playHistory` actually does) a bare number.
`num none` stands for `NaN` (a subtraction involving an undefined
`starting_time`). -/
inductive SchedArg where
  | fn (c : EvCall)
  | num (n : Option Int)
deriving DecidableEq

/-- Observable side effects of the operations. -/
inductive Effect where
  | warn (msg : String)
  | preventDefault
  | throwErr
  | invoke (h : Handler) (info : Option Nat)
  | schedule (arg : SchedArg)
deriving DecidableEq

/-- The polymorphic first argument of `callEvent`: a direct handler value
(possibly `undefined`) or a string trigger-group label. -/
inductive EvArg where
  | fn (h : Option Handler)
  | str (s : String)
deriving DecidableEq

/-- JavaScript truthiness of a `callEvent` argument: `undefined` and the
empty string are falsy, functions and non-empty strings truthy. -/
def evTruthy : EvArg → Bool
  | .fn none => false
  | .fn (some _) => true
  | .str s => !(s == "")

/-- An input occurrence fed to a pipe: `fields` are its readable properties
(e.g. `keyCode`), `asKey` is the string it coerces to when used directly as
a property key, `hasPreventDefault` whether it exposes a callable
`preventDefault`. -/
structure Occ where
  hasPreventDefault : Bool
  fields : JMap String String
  asKey : String
deriving DecidableEq

/-- The closure returned by `makePipe`: it captures the trigger-group object
`functions = triggers[trigger]` at creation time together with the creation
arguments. -/
structure Pipe where
  functions : TrigGroup
  trigger : String
  use_label : Bool
  code_label : Option String
  prevent_defaults : Bool
deriving DecidableEq

/-- The recognized fields of the `settings` configuration object; `none`
means the property is absent. -/
structure Settings where
  triggers : Option Triggers := none
  recipients : Option Nat := none
  aliases : Option (JMap String (List String)) := none
  event_information : Option Nat := none
  recording : Option Bool := none
deriving DecidableEq

/-- The closure variables of one `InputWritr` instance.  `store` is the heap
of history objects; `history`, the elements of `histories` and the values of
`historiesNamed` are references (indices) into it, `none` standing for the
JavaScript value `undefined`. -/
structure IWState where
  triggers : Triggers
  recipients : Option Nat
  aliases : JMap String (List String)
  store : List Hist
  history : Option Nat
  histories : List (Option Nat)
  historiesNamed : JMap String (Option Nat)
  starting_time : Option ℚ
  event_information : Option Nat
  recording : Bool
deriving DecidableEq

/-- JavaScript property read of a trigger group, collapsing key-absent to
`undefined`: this is the value of the expression `trigger_group[k]`. -/
def groupRead (g : TrigGroup) (k : String) : Option Handler :=
  (jget g k).getD none

/-- The innermost loop of `resetAliases`: for each raw code `c` of one alias
run `trigger_group[c] = trigger_group[alias_name]`, re-reading the label on
every iteration as the source does. -/
def assignCodes (g : TrigGroup) (label : String) (codes : List String) : TrigGroup :=
  codes.foldl (fun g' c => jset g' c (groupRead g' label)) g

/-- The function `resetAliases`: for each alias in order, for each trigger group, copy the
value stored under the alias label to every raw code of the alias. -/
def resetAliases (aliases : JMap String (List String)) (triggers : Triggers) :
    Triggers :=
  aliases.foldl
    (fun trs p => trs.map (fun q => (q.1, assignCodes q.2 p.1 p.2))) triggers

/-- The method `self.reset(settings)`: replaces the configuration and empties the
archive `histories` (both its array part and its named properties data, since
the source assigns a fresh array).  The source touches neither `history` nor
`starting_time`, and does not read the clock. -/
def reset (st : IWState) (settings : Settings) : IWState :=
  { st with
    histories := []
    historiesNamed := []
    triggers :=
      resetAliases (settings.aliases.getD []) (settings.triggers.getD [])
    recipients := settings.recipients
    event_information := settings.event_information
    recording := settings.recording.getD true
    aliases := settings.aliases.getD [] }

/-- The empty closure state before the constructor body runs. -/
def initState : IWState :=
  { triggers := []
    recipients := none
    aliases := []
    store := []
    history := none
    histories := []
    historiesNamed := []
    starting_time := none
    event_information := none
    recording := true }

/-- The constructor `InputWritr(settings)`: it only runs
`self.reset(settings || {})`. -/
def InputWritr (settings : Option Settings) : IWState :=
  reset initState (settings.getD {})

/-- The method `self.restartHistory(keep_history)`: archives the outgoing history only
when `history && arguments.length && keep_history` (note: an omitted
argument, `keep_history = none`, makes `arguments.length` zero and skips the
archive), then allocates a fresh empty history object and records the
clock reading `now` as `starting_time`. -/
def restartHistory (st : IWState) (keep_history : Option Bool) (now : ℚ) :
    IWState :=
  let st1 :=
    if st.history.isSome && keep_history.getD false then
      { st with histories := st.histories ++ [st.history] }
    else st
  { st1 with
    store := st1.store ++ [[]]
    history := some st1.store.length
    starting_time := some now }

/-- The value of one decimal digit character, used to decide whether a
property name is a JavaScript array index. -/
def digitVal (c : Char) : Option Nat :=
  if c = '0' then some 0 else if c = '1' then some 1 else if c = '2' then some 2
  else if c = '3' then some 3 else if c = '4' then some 4
  else if c = '5' then some 5 else if c = '6' then some 6
  else if c = '7' then some 7 else if c = '8' then some 8
  else if c = '9' then some 9 else none

/-- Accumulating decimal parse of a character list. -/
def strDigitsAux : List Char → Nat → Option Nat
  | [], acc => some acc
  | c :: cs, acc =>
    match digitVal c with
    | none => none
    | some d => strDigitsAux cs (acc * 10 + d)

/-- Returns `some i` when the property name is an all-digit string, i.e. a JavaScript
array index selecting the array part of `histories` rather than a named
property. -/
def strIndex (s : String) : Option Nat :=
  match s.data with
  | [] => none
  | l => strDigitsAux l 0

/-- The method `self.saveHistory(name)`: pushes the reference to the active history onto
`histories`, and when a name is supplied also stores the same reference under
that name (an integer-like name indexes the array part, any other name a
named property). -/
def saveHistory (st : IWState) (name : Option String) : IWState :=
  let st1 := { st with histories := st.histories ++ [st.history] }
  match name with
  | none => st1
  | some n =>
    match strIndex n with
    | some i => { st1 with histories := st1.histories.set i st.history }
    | none =>
      { st1 with historiesNamed := jset st1.historiesNamed n st.history }

/-- The reference returned by `self.getHistory(name)`: the active history
when no argument is given, otherwise `histories[name]`. -/
def getHistoryRef (st : IWState) (name : Option String) : Option Nat :=
  match name with
  | none => st.history
  | some n =>
    match strIndex n with
    | some i => st.histories.getD i none
    | none => (jget st.historiesNamed n).getD none

/-- The history object `self.getHistory(name)` evaluates to, dereferenced
through the heap; `none` is the JavaScript result `undefined`. -/
def getHistory (st : IWState) (name : Option String) : Option Hist :=
  (getHistoryRef st name).map (fun r => st.store.getD r [])

/-- The method `self.getHistories()`. -/
def getHistories (st : IWState) : List (Option Nat) :=
  st.histories

/-- The method `self.getRecording()`. -/
def getRecording (st : IWState) : Bool :=
  st.recording

/-- The method `self.setRecording(recording_new)`. -/
def setRecording (st : IWState) (b : Bool) : IWState :=
  { st with recording := b }

/-- The method `self.setEventInformation(event_info_new)`. -/
def setEventInformation (st : IWState) (e : Option Nat) : IWState :=
  { st with event_information := e }

/-- The function `callEvent(event, keycode)`: warns and stops when the argument is falsy;
resolves a string argument through `triggers[event][keycode]` — reading a
property of an undefined group, or calling the undefined result of the
lookup, throws a `TypeError` — and otherwise invokes the handler with
`event_information`.  `Effect.invoke h i` models the call `h(i)` whose value
`callEvent` returns. -/
def callEvent (st : IWState) (event : EvArg) (keycode : String) :
    List Effect :=
  if evTruthy event = false then
    [Effect.warn "Blank event given, ignoring it."]
  else
    match event with
    | .str s =>
      match jget st.triggers s with
      | none => [Effect.throwErr]
      | some grp =>
        match (jget grp keycode).getD none with
        | none => [Effect.throwErr]
        | some h => [Effect.invoke h st.event_information]
    | .fn none => [Effect.throwErr]
    | .fn (some h) => [Effect.invoke h st.event_information]

/-- The function `makeEventCall(info)`: builds the closure that would run
`callEvent(info[0], info[1])` when called. -/
def makeEventCall (info : String × String) : EvCall :=
  ⟨info.1, info.2⟩

/-- The method `self.playHistory(events)`: iterates the history (defaulting to the
active one; iterating `undefined` visits nothing).  For each entry the source
builds `call = makeEventCall(events[time])` but then never uses it: the
`setTimeout` receives only the number `Math.round(time - starting_time)` in
its callback position and no delay argument. -/
def playHistory (st : IWState) (events : Option Hist) : List Effect :=
  let evs : Hist :=
    match events with
    | some e => e
    | none =>
      match st.history with
      | some r => st.store.getD r []
      | none => []
  evs.map (fun p =>
    Effect.schedule
      (SchedArg.num (st.starting_time.map (fun s => jsRound ((p.1 : ℚ) - s)))))

/-- The method `self.makePipe(trigger, code_label, prevent_defaults)`: warns and returns
`undefined` for an unknown trigger name, otherwise captures the group object
and the arguments in the returned closure.  (`use_label` is whether a second
argument was passed at all.) -/
def makePipe (st : IWState) (trigger : String) (code_label : Option String)
    (prevent_defaults : Bool) : Option Pipe × List Effect :=
  match jget st.triggers trigger with
  | none =>
    (none,
      [Effect.warn
        ("No trigger of label " ++ trigger ++ " has been defined.")])
  | some g =>
    (some ⟨g, trigger, code_label.isSome, code_label, prevent_defaults⟩, [])

/-- The property key the pipe body ends up looking up: the occurrence's
`code_label` field when a label is in use (an absent field gives `undefined`,
which stringifies to the key `"undefined"`), else the occurrence itself. -/
def pipeKey (p : Pipe) (o : Occ) : String :=
  if p.use_label then (jget o.fields (p.code_label.getD "undefined")).getD "undefined"
  else o.asKey

/-- The body of the closure returned by `makePipe`: optional
`preventDefault`, code extraction, `hasOwnProperty` presence check (a key
holding `undefined` passes it), then — when recording — the assignment
`history[Math.round(get_timestamp())] = [trigger, alias]` (which throws when
`history` is still `undefined`), and finally `callEvent(functions[alias])`. -/
def runPipe (p : Pipe) (st : IWState) (o : Occ) (now : ℚ) :
    IWState × List Effect :=
  let pd : List Effect :=
    if p.prevent_defaults && o.hasPreventDefault then [Effect.preventDefault]
    else []
  let code := pipeKey p o
  match jget p.functions code with
  | none => (st, pd)
  | some hval =>
    if st.recording then
      match st.history with
      | none => (st, pd ++ [Effect.throwErr])
      | some r =>
        let st' :=
          { st with
            store :=
              st.store.set r
                (jset (st.store.getD r []) (jsRound now) (p.trigger, code)) }
        (st', pd ++ callEvent st' (.fn hval) "undefined")
    else (st, pd ++ callEvent st (.fn hval) "undefined")

/-- Folding all aliases over a single trigger group; `resetAliases` acts as
this fold on every group (proved below). -/
def foldGroup (al : JMap String (List String)) (g : TrigGroup) : TrigGroup :=
  al.foldl (fun g' p => assignCodes g' p.1 p.2) g

/-! Concrete configurations used by the closed checks below. -/

/-- The trigger group of the spec's concrete scenario: one handler under the
human label. -/
def gKD : TrigGroup := [("move-left", some 1)]

/-- The spec's concrete scenario settings:
`triggers = {key-down: {move-left: fnA}}`, `aliases = {move-left: [37, 65]}`. -/
def settingsA : Settings :=
  { triggers := some [("key-down", gKD)]
    aliases := some [("move-left", ["37", "65"])] }

/-- A state with one recorded entry in the active history. -/
def stC2 : IWState :=
  { initState with store := [[(5, ("t", "c"))]], history := some 0 }

/-- A state with a recorded entry and a set session start time. -/
def stC7 : IWState :=
  { initState with
    store := [[(3, ("t", "c"))]], history := some 0, starting_time := some 7 }

/-- A recording state whose session started at the fractional reading 2/5 ms,
with one trigger group binding code 37. -/
def stRec : IWState :=
  { initState with
    triggers := [("onkeydown", [("37", some 5)])]
    store := [[]]
    history := some 0
    starting_time := some (2/5) }

/-- The pipe `makePipe` returns over `stRec`'s group. -/
def pipeRec : Pipe := ⟨[("37", some 5)], "onkeydown", false, none, false⟩

/-- An occurrence that is the raw code 37 itself. -/
def occ37 : Occ := ⟨false, [], "37"⟩

/-- Settings whose alias label `left` has no handler registered in the
group `g`. -/
def settingsU : Settings :=
  { triggers := some [("g", [("x", some 9)])]
    aliases := some [("left", ["37"])] }

/-- The state after constructing with `settingsU` and one `restartHistory`
at clock reading 0. -/
def stU : IWState := restartHistory (reset initState settingsU) none 0

/-- The pipe `makePipe` returns over `stU`'s resolved group: code 37 is
present but holds `undefined`. -/
def pipeU : Pipe := ⟨[("x", some 9), ("37", none)], "g", false, none, false⟩

/-- A state with a single trigger group binding code 37 to handler 4. -/
def stG : IWState :=
  { initState with triggers := [("g", [("37", some 4)])] }

/-- A state whose session started at clock reading 0. -/
def stP1 : IWState := { initState with starting_time := some 0 }

/-- A state like `stG` but with a live (empty) active history. -/
def stC8 : IWState :=
  { initState with
    triggers := [("g", [("37", some 4)])]
    store := [[]]
    history := some 0 }

/-- Replacement settings installing a different handler under the same
trigger-group name and code. -/
def settingsC8 : Settings :=
  { triggers := some [("g", [("37", some 7)])], recording := some true }

/-- The pipe `makePipe` returns over `stC8`'s group before any reset. -/
def pipeC8 : Pipe := ⟨[("37", some 4)], "g", false, none, false⟩

section Lemmas
attribute [local semireducible] Rat.add Rat.sub Rat.mul Rat.inv

/-- Unfolding one step of `assignCodes`. -/
theorem assignCodes_cons (g : TrigGroup) (label c : String)
    (rest : List String) :
    assignCodes g label (c :: rest)
      = assignCodes (jset g c (groupRead g label)) label rest := rfl

/-- Unfolding one step of `foldGroup`. -/
theorem foldGroup_cons (a : String × List String)
    (rest : JMap String (List String)) (g : TrigGroup) :
    foldGroup (a :: rest) g = foldGroup rest (assignCodes g a.1 a.2) := rfl

/-- Reading back a key just written. -/
theorem jget_jset_self {κ α : Type} [DecidableEq κ] (m : JMap κ α) (k : κ)
    (v : α) : jget (jset m k v) k = some v := by
  induction m with
  | nil => simp [jget, jset]
  | cons p rest ih =>
    by_cases h : p.1 = k
    · simp [jset, h, jget]
    · simp [jset, h, jget, ih]

/-- Writing one key leaves every other key unchanged. -/
theorem jget_jset_ne {κ α : Type} [DecidableEq κ] (m : JMap κ α) (k k' : κ)
    (v : α) (h : k ≠ k') : jget (jset m k v) k' = jget m k' := by
  induction m with
  | nil => simp [jget, jset, h]
  | cons p rest ih =>
    by_cases hp : p.1 = k
    · subst hp
      simp [jset, jget, h, ih]
    · simp [jset, hp, jget, ih]

/-- Overwriting an existing key keeps the number of bindings. -/
theorem jset_length_of_mem {κ α : Type} [DecidableEq κ] (m : JMap κ α)
    (k : κ) (v w : α) (h : jget m k = some w) :
    (jset m k v).length = m.length := by
  induction m with
  | nil => simp [jget] at h
  | cons p rest ih =>
    by_cases hp : p.1 = k
    · simp [jset, hp]
    · simp [jget, hp] at h
      simp [jset, hp, ih h]

/-- Writing a fresh key appends exactly one binding. -/
theorem jset_length_of_not_mem {κ α : Type} [DecidableEq κ] (m : JMap κ α)
    (k : κ) (v : α) (h : jget m k = none) :
    (jset m k v).length = m.length + 1 := by
  induction m with
  | nil => simp [jset]
  | cons p rest ih =>
    by_cases hp : p.1 = k
    · simp [jget, hp] at h
    · simp [jget, hp] at h
      simp [jset, hp, ih h]

/-- The fold `assignCodes` only writes the listed codes. -/
theorem assignCodes_get_not_mem (g : TrigGroup) (label : String)
    (codes : List String) (k : String) (h : k ∉ codes) :
    jget (assignCodes g label codes) k = jget g k := by
  induction codes generalizing g with
  | nil => rfl
  | cons c rest ih =>
    have hk : k ∉ rest := fun hr => h (List.mem_cons_of_mem _ hr)
    have hck : c ≠ k := fun hc => h (hc ▸ List.mem_cons_self c rest)
    rw [assignCodes_cons, ih _ hk, jget_jset_ne _ _ _ _ hck]

/-- As long as the label itself is not among the codes, `assignCodes` puts
the (re-read) value under the label at every listed code. -/
theorem assignCodes_get_mem (g : TrigGroup) (label : String)
    (codes : List String) (c : String) (hl : label ∉ codes) (hc : c ∈ codes) :
    jget (assignCodes g label codes) c = some (groupRead g label) := by
  induction codes generalizing g with
  | nil => cases hc
  | cons c0 rest ih =>
    have hl' : label ∉ rest := fun hr => hl (List.mem_cons_of_mem _ hr)
    have hlc0 : c0 ≠ label := fun he => hl (he ▸ List.mem_cons_self c0 rest)
    have hread : groupRead (jset g c0 (groupRead g label)) label
        = groupRead g label := by
      unfold groupRead
      rw [jget_jset_ne _ _ _ _ hlc0]
    rw [assignCodes_cons]
    by_cases hcr : c ∈ rest
    · rw [ih _ hl' hcr, hread]
    · have hcc0 : c = c0 := by
        rcases List.mem_cons.mp hc with h | h
        · exact h
        · exact absurd h hcr
      subst hcc0
      rw [assignCodes_get_not_mem _ _ _ _ hcr, jget_jset_self]

/-- The fold `foldGroup` leaves a key untouched when no alias lists it as a code. -/
theorem foldGroup_get_stable (al : JMap String (List String)) (g : TrigGroup)
    (k : String) (h : ∀ p ∈ al, k ∉ p.2) :
    jget (foldGroup al g) k = jget g k := by
  induction al generalizing g with
  | nil => rfl
  | cons p rest ih =>
    rw [foldGroup_cons, ih _ (fun q hq => h q (List.mem_cons_of_mem _ hq)),
      assignCodes_get_not_mem _ _ _ _ (h p (List.mem_cons_self p rest))]

/-- When no alias code collides with another alias code or with any alias
label, every code of an alias ends up bound to the value originally stored
under that alias's label. -/
theorem foldGroup_resolves (al : JMap String (List String))
    (Hlab : ∀ p ∈ al, ∀ q ∈ al, ∀ c ∈ p.2, c ≠ q.1)
    (Hdisj : al.Pairwise (fun p q => ∀ c ∈ p.2, c ∉ q.2)) (g : TrigGroup) :
    ∀ p ∈ al, ∀ c ∈ p.2,
      jget (foldGroup al g) c = some (groupRead g p.1) := by
  induction al generalizing g with
  | nil => intro p hp; cases hp
  | cons a rest ih =>
    intro p hp c hc
    have hana : a.1 ∉ a.2 := fun hmem =>
      Hlab a (List.mem_cons_self a rest) a (List.mem_cons_self a rest)
        a.1 hmem rfl
    rcases List.mem_cons.mp hp with he | hrest
    · subst he
      rw [foldGroup_cons, foldGroup_get_stable _ _ _
        (fun q hq => (List.pairwise_cons.mp Hdisj).1 q hq c hc),
        assignCodes_get_mem g p.1 p.2 c hana hc]
    · have hc_ne : ∀ c' ∈ a.2, c' ≠ p.1 := fun c' hc' =>
        Hlab a (List.mem_cons_self a rest) p (List.mem_cons_of_mem _ hrest)
          c' hc'
      have hread : groupRead (assignCodes g a.1 a.2) p.1
          = groupRead g p.1 := by
        unfold groupRead
        rw [assignCodes_get_not_mem _ _ _ _ (fun hm => hc_ne p.1 hm rfl)]
      rw [foldGroup_cons, ih
        (fun p1 hp1 q hq c1 hc1 =>
          Hlab p1 (List.mem_cons_of_mem _ hp1) q (List.mem_cons_of_mem _ hq)
            c1 hc1)
        (List.pairwise_cons.mp Hdisj).2
        _ p hrest c hc, hread]

end Lemmas

section MoreLemmas
attribute [local semireducible] Rat.add Rat.sub Rat.mul Rat.inv

/-- The nested loops of `resetAliases` (aliases outside, trigger groups
inside) act on each trigger group as the per-group fold of all aliases. -/
theorem resetAliases_eq_map (al : JMap String (List String))
    (trs : Triggers) :
    resetAliases al trs = trs.map (fun q => (q.1, foldGroup al q.2)) := by
  induction al generalizing trs with
  | nil =>
    show trs = trs.map (fun q => (q.1, q.2))
    simp
  | cons p rest ih =>
    show resetAliases rest (trs.map (fun q => (q.1, assignCodes q.2 p.1 p.2)))
      = trs.map (fun q => (q.1, foldGroup (p :: rest) q.2))
    rw [ih, List.map_map]
    rfl

/-- JavaScript `Math.round` is monotone in the clock reading. -/
theorem jsRound_mono {a b : ℚ} (h : a ≤ b) : jsRound a ≤ jsRound b := by
  unfold jsRound
  exact Int.floor_le_floor (by linarith)

/-- Reading back the heap cell just overwritten. -/
theorem list_set_getD {α : Type} (l : List α) (r : Nat) (x d : α)
    (h : r < l.length) : (l.set r x).getD r d = x := by
  induction l generalizing r with
  | nil => simp at h
  | cons a rest ih =>
    cases r with
    | zero => rfl
    | succ n =>
      simp only [List.set_cons_succ, List.getD, List.get?_cons_succ]
      exact ih n (Nat.lt_of_succ_lt_succ h)

end MoreLemmas

section Claims
attribute [local semireducible] Rat.add Rat.sub Rat.mul Rat.inv

/-- C1: the source's `playHistory` prepares `call = makeEventCall(events[time])`
but never passes it to `setTimeout`: its only argument is the number
`Math.round(time - starting_time)`, placed in the callback slot with no delay.
For the history `{100: ["onkeydown", "37"]}` and session start 0, the single
registration carries a bare number, the prepared callback is never scheduled,
and no callEvent invocation can ever fire — contradicting the claim that each
scheduled callback invokes `callEvent(entry.trigger, entry.code)`. -/
theorem playHistory_never_fires :
    playHistory stP1 (some [(100, ("onkeydown", "37"))])
      = [Effect.schedule (SchedArg.num (some 100))] ∧
    Effect.schedule (SchedArg.fn (makeEventCall ("onkeydown", "37")))
        ∉ playHistory stP1 (some [(100, ("onkeydown", "37"))]) ∧
    (playHistory stP1 (some [(100, ("onkeydown", "37"))])).all
      (fun e =>
        match e with
        | Effect.invoke _ _ => false
        | Effect.schedule (SchedArg.fn _) => false
        | _ => true) = true := by
  decide

/-- C2: `restartHistory()` called with NO argument does not archive the current
history — `arguments.length` is 0, so the `history && arguments.length &&
keep_history` guard fails — although the function's own doc comment says the
flag "defaults to true".  An explicit `true` archives the exact history
reference; in every case a fresh empty history is installed and the clock
reading becomes the session start. -/
theorem restartHistory_default_no_archive :
    (restartHistory stC2 none 9).histories = [] ∧
    (restartHistory stC2 (some true) 9).histories = [some 0] ∧
    (restartHistory stC2 (some false) 9).histories = [] ∧
    getHistory (restartHistory stC2 none 9) none = some [] ∧
    (restartHistory stC2 none 9).starting_time = some 9 := by
  decide

/-- C7 (amended): `reset` replaces the configuration and empties the archive,
but leaves the active history, its contents and the session start time
untouched and never reads the clock; at construction the active history is
`undefined` (not an empty history) until the first `restartHistory`. -/
theorem reset_keeps_session_state (st : IWState) (s : Settings) :
    (reset st s).histories = [] ∧ (reset st s).historiesNamed = [] ∧
    (reset st s).history = st.history ∧ (reset st s).store = st.store ∧
    (reset st s).starting_time = st.starting_time ∧
    (InputWritr (some s)).history = none ∧
    (InputWritr (some s)).starting_time = none :=
  ⟨rfl, rfl, rfl, rfl, rfl, rfl, rfl⟩

/-- C7 counterexample: resetting a state that holds one recorded entry and
session start 7 leaves the active history non-empty and the start time at 7
(no clock reading is involved), contradicting the claim that reset empties
the active History and re-derives the session start from the Clock. -/
theorem reset_cex :
    getHistory (reset stC7 {}) none = some [(3, ("t", "c"))] ∧
    getHistory (reset stC7 {}) none ≠ some [] ∧
    (reset stC7 {}).starting_time = some 7 := by
  decide

/-- C6 counterexample: with no trigger groups registered, `callEvent` on the
non-blank string label `"onkeydown"` throws (reading `[keycode]` of an
undefined group) instead of logging a warning — the claimed soft failure and
no-throw guarantee fail for string labels that do not resolve. -/
theorem callEvent_cex :
    callEvent initState (EvArg.str "onkeydown") "37" = [Effect.throwErr] ∧
    Effect.throwErr ∈ callEvent initState (EvArg.str "onkeydown") "37" ∧
    Effect.warn "Blank event given, ignoring it."
        ∉ callEvent initState (EvArg.str "onkeydown") "37" := by
  decide

/-- C6 (amended): `callEvent` warns and returns without invoking only when its
event ARGUMENT is blank (an undefined handler value or the empty string); a
direct callable is invoked with the event information and its result returned;
but a string label whose `triggers[event][keycode]` resolution yields no
callable throws a fault that propagates to the caller. -/
theorem callEvent_behavior (st : IWState) (ev : EvArg) (keycode : String) :
    (evTruthy ev = false →
      callEvent st ev keycode
        = [Effect.warn "Blank event given, ignoring it."]) ∧
    (∀ h, ev = EvArg.fn (some h) →
      callEvent st ev keycode = [Effect.invoke h st.event_information]) ∧
    (∀ s, ev = EvArg.str s → s ≠ "" → jget st.triggers s = none →
      callEvent st ev keycode = [Effect.throwErr]) ∧
    (∀ s grp, ev = EvArg.str s → s ≠ "" → jget st.triggers s = some grp →
      (jget grp keycode).getD none = none →
      callEvent st ev keycode = [Effect.throwErr]) ∧
    (∀ s grp h, ev = EvArg.str s → s ≠ "" → jget st.triggers s = some grp →
      (jget grp keycode).getD none = some h →
      callEvent st ev keycode = [Effect.invoke h st.event_information]) := by
  refine ⟨?_, ?_, ?_, ?_, ?_⟩
  · intro hb
    simp [callEvent, hb]
  · rintro h rfl
    simp [callEvent, evTruthy]
  · rintro s rfl hs hn
    simp [callEvent, evTruthy, hs, hn]
  · rintro s grp rfl hs hg hn
    simp [callEvent, evTruthy, hs, hg, hn]
  · rintro s grp h rfl hs hg hh
    simp [callEvent, evTruthy, hs, hg, hh]

/-- C6 witness: the blank-argument and direct-callable cases at concrete
inputs. -/
theorem callEvent_behavior_witness :
    callEvent initState (EvArg.fn none) "x"
      = [Effect.warn "Blank event given, ignoring it."] ∧
    callEvent stG (EvArg.str "g") "37" = [Effect.invoke 4 none] := by
  constructor
  · exact (callEvent_behavior initState (EvArg.fn none) "x").1 (by decide)
  · exact (callEvent_behavior stG (EvArg.str "g") "37").2.2.2.2 "g"
      [("37", some 4)] 4 rfl (by decide) (by decide) (by decide)

/-- C3 counterexample: aliases `a ↦ ["5"]` and `b ↦ ["5"]` share the raw code
"5" over a group binding `a ↦ handler 1` and `b ↦ handler 2`; after reset the
group's entry at "5" holds handler 2 while the entry at label "a" holds
handler 1, so the claimed identity `g["5"] === g["a"]` fails for alias `a`. -/
theorem resetAliases_shared_code_cex :
    jget ((jget (reset initState
        { triggers := some [("g", [("a", some 1), ("b", some 2)])]
          aliases := some [("a", ["5"]), ("b", ["5"])] }).triggers "g").getD [])
        "5" = some (some 2) ∧
    jget ((jget (reset initState
        { triggers := some [("g", [("a", some 1), ("b", some 2)])]
          aliases := some [("a", ["5"]), ("b", ["5"])] }).triggers "g").getD [])
        "a" = some (some 1) ∧
    some (some (2 : Handler)) ≠ some (some (1 : Handler)) := by
  decide

/-- C3 (amended): immediately after `reset(config)`, for every alias and every
trigger group in which the alias's label has a handler, the group's entries at
each of the alias's raw codes are the identical handler reference as the entry
at the label — PROVIDED no two aliases share a raw code and no raw code equals
any alias's label (otherwise a later alias's pass overwrites the binding, see
the counterexample). -/
theorem reset_resolves_aliases (st : IWState) (s : Settings) (trs : Triggers)
    (al : JMap String (List String))
    (hT : s.triggers = some trs) (hA : s.aliases = some al)
    (Hlab : ∀ p ∈ al, ∀ q ∈ al, ∀ c ∈ p.2, c ≠ q.1)
    (Hdisj : al.Pairwise (fun p q => ∀ c ∈ p.2, c ∉ q.2)) :
    (reset st s).triggers = trs.map (fun q => (q.1, foldGroup al q.2)) ∧
    ∀ q ∈ trs, ∀ p ∈ al, ∀ f : Handler, jget q.2 p.1 = some (some f) →
      ∀ c ∈ p.2, jget (foldGroup al q.2) c = some (some f) ∧
        jget (foldGroup al q.2) p.1 = some (some f) := by
  constructor
  · show resetAliases (s.aliases.getD []) (s.triggers.getD []) = _
    rw [hT, hA]
    exact resetAliases_eq_map al trs
  · intro q hq p hp f hf c hc
    have hlabstable : jget (foldGroup al q.2) p.1 = jget q.2 p.1 :=
      foldGroup_get_stable al q.2 p.1
        (fun u hu hmem => Hlab u hu p hp p.1 hmem rfl)
    constructor
    · rw [foldGroup_resolves al Hlab Hdisj q.2 p hp c hc]
      unfold groupRead
      rw [hf]
      rfl
    · rw [hlabstable, hf]

/-- C3 witness: the spec's concrete scenario
`triggers = {key-down: {move-left: fnA}}`, `aliases = {move-left: [37, 65]}`:
after reset, codes 37 and 65 and the label all hold handler 1. -/
theorem reset_resolves_aliases_witness :
    (reset initState settingsA).triggers
      = [("key-down", foldGroup [("move-left", ["37", "65"])] gKD)] ∧
    jget (foldGroup [("move-left", ["37", "65"])] gKD) "37" = some (some 1) ∧
    jget (foldGroup [("move-left", ["37", "65"])] gKD) "65" = some (some 1) ∧
    jget (foldGroup [("move-left", ["37", "65"])] gKD) "move-left"
      = some (some 1) := by
  have h := reset_resolves_aliases initState settingsA [("key-down", gKD)]
    [("move-left", ["37", "65"])] rfl rfl (by decide) (by decide)
  have h2 := h.2 ("key-down", gKD) (by decide) ("move-left", ["37", "65"])
    (by decide) 1 (by decide)
  exact ⟨h.1, (h2 "37" (by decide)).1, (h2 "65" (by decide)).1,
    (h2 "37" (by decide)).2⟩

/-- C4 (amended): over a pipe with a handler bound at the extracted code and a
live active history, a recording dispatch stores `(triggerName, code)` at key
`Math.round(now)` — which is ≥ `Math.round` of the session start (though it can
fall below the raw fractional start itself, see the counterexample) — adding
exactly one binding when that key is fresh (and overwriting the existing one
otherwise), then invokes the bound handler with the event information; with
recording off the handler is still invoked and the state is unchanged. -/
theorem pipe_dispatch (p : Pipe) (st : IWState) (o : Occ) (now t0 : ℚ)
    (r : Nat) (h : Handler)
    (hpd : p.prevent_defaults = false)
    (hb : jget p.functions (pipeKey p o) = some (some h))
    (hr : st.history = some r)
    (ht0 : st.starting_time = some t0) (hmono : t0 ≤ now) :
    (st.recording = true →
      runPipe p st o now =
        ({ st with
            store := (st.store.set r
              (jset (st.store.getD r []) (jsRound now)
                (p.trigger, pipeKey p o))) },
          [Effect.invoke h st.event_information]) ∧
      jget (jset (st.store.getD r []) (jsRound now) (p.trigger, pipeKey p o))
          (jsRound now) = some (p.trigger, pipeKey p o) ∧
      jsRound t0 ≤ jsRound now ∧
      (jget (st.store.getD r []) (jsRound now) = none →
        (jset (st.store.getD r []) (jsRound now)
            (p.trigger, pipeKey p o)).length
          = (st.store.getD r []).length + 1)) ∧
    (st.recording = false →
      runPipe p st o now = (st, [Effect.invoke h st.event_information])) := by
  constructor
  · intro hrec
    refine ⟨?_, jget_jset_self _ _ _, jsRound_mono hmono,
      fun hfresh => jset_length_of_not_mem _ _ _ hfresh⟩
    simp [runPipe, hpd, hb, hr, hrec, callEvent, evTruthy]
  · intro hrec
    simp [runPipe, hpd, hb, hr, hrec, callEvent, evTruthy]

/-- C4 witness: a recording and a non-recording dispatch of code 37 at clock
reading 2/5, starting from session start 2/5. -/
theorem pipe_dispatch_witness :
    runPipe pipeRec stRec occ37 (2/5)
      = ({ stRec with store := [[(0, ("onkeydown", "37"))]] },
          [Effect.invoke 5 none]) ∧
    runPipe pipeRec (setRecording stRec false) occ37 (2/5)
      = (setRecording stRec false, [Effect.invoke 5 none]) := by
  have h1 := pipe_dispatch pipeRec stRec occ37 (2/5) (2/5) 0 5 rfl (by decide)
    rfl rfl le_rfl
  have h2 := pipe_dispatch pipeRec (setRecording stRec false) occ37 (2/5)
    (2/5) 0 5 rfl (by decide) rfl rfl le_rfl
  constructor
  · rw [(h1.1 rfl).1]
    decide
  · exact h2.2 rfl

/-- C4 counterexample: with session start 2/5 (a fractional clock reading),
two recorded dispatches both at clock reading 2/5 leave ONE history entry
keyed 0: the second dispatch overwrote the first instead of adding an entry,
and the key 0 is strictly below the recorded session start 2/5 — refuting
"adds exactly one new HistoryEntry keyed at a timestamp ≥ the session start
time". -/
theorem pipe_dispatch_cex :
    getHistory ((runPipe pipeRec
        ((runPipe pipeRec stRec occ37 (2/5)).1) occ37 (2/5)).1) none
      = some [(0, ("onkeydown", "37"))] ∧
    stRec.starting_time = some (2/5) ∧
    jsRound (2/5) = 0 ∧
    ¬ ((0 : ℚ) ≥ 2/5) := by
  decide

/-- C5 counterexample: over `settingsU` (alias `left ↦ [37]` whose label has
no handler in group `g`), resolution created the key "37" holding `undefined`,
so a dispatch of code 37 does NOT fail the `hasOwnProperty` presence check: it
records a history entry and the event caller logs the blank-event warning —
refuting "no handler call, no history entry, and no warning". -/
theorem alias_undefined_cex :
    makePipe stU "g" none false = (some pipeU, []) ∧
    jget pipeU.functions "37" = some none ∧
    getHistory ((runPipe pipeU stU occ37 0).1) none
      = some [(0, ("g", "37"))] ∧
    (runPipe pipeU stU occ37 0).2
      = [Effect.warn "Blank event given, ignoring it."] := by
  decide

/-- C5 (amended): when an alias's label has no entry in a trigger group,
resolution copies the `undefined` value to each raw code, CREATING those keys;
a subsequent dispatch through a pipe to such a code passes the
`hasOwnProperty` presence check, records a history entry when recording is
on, and then the Event Caller warns about the blank handler and invokes
nothing. -/
theorem alias_undefined_dispatch (g : TrigGroup) (label : String)
    (codes : List String) (c : String) (st : IWState) (p : Pipe) (o : Occ)
    (now : ℚ) (r : Nat)
    (hlab : jget g label = none) (hnm : label ∉ codes) (hc : c ∈ codes)
    (hpf : p.functions = assignCodes g label codes)
    (hkey : pipeKey p o = c) (hpd : p.prevent_defaults = false)
    (hrec : st.recording = true) (hr : st.history = some r) :
    jget p.functions c = some none ∧
    runPipe p st o now =
      ({ st with
          store := (st.store.set r
            (jset (st.store.getD r []) (jsRound now) (p.trigger, c))) },
        [Effect.warn "Blank event given, ignoring it."]) := by
  have hget : jget p.functions c = some none := by
    rw [hpf, assignCodes_get_mem g label codes c hnm hc]
    unfold groupRead
    rw [hlab]
    rfl
  refine ⟨hget, ?_⟩
  simp [runPipe, hkey, hget, hpd, hrec, hr, callEvent, evTruthy]

/-- C5 witness: the `settingsU` scenario instantiating the amended claim. -/
theorem alias_undefined_dispatch_witness :
    jget pipeU.functions "37" = some none ∧
    runPipe pipeU stU occ37 0
      = ({ stU with store := [[(0, ("g", "37"))]] },
          [Effect.warn "Blank event given, ignoring it."]) := by
  have h := alias_undefined_dispatch [("x", some 9)] "left" ["37"] "37" stU
    pipeU occ37 0 0 (by decide) (by decide) (by decide) (by decide)
    (by decide) rfl (by decide) (by decide)
  refine ⟨h.1, ?_⟩
  rw [h.2]
  decide

/-- C8: the dispatch closure keeps using the trigger-group object captured
when `makePipe` ran: after a later `reset` installs different groups, the old
pipe still resolves handlers in the pre-reset group — here handler `h` bound
in the old group is invoked whatever the new settings bind — while recording
is gated by the CURRENT flag and the entry is written into the CURRENT active
history. -/
theorem pipe_captures_group (st1 : IWState) (s : Settings) (trigger : String)
    (g1 : TrigGroup) (p : Pipe) (o : Occ) (now : ℚ) (h : Handler) (r : Nat)
    (b : Bool)
    (hg1 : jget st1.triggers trigger = some g1)
    (hmk : (makePipe st1 trigger none false).1 = some p)
    (hb : jget g1 (pipeKey p o) = some (some h))
    (hrec : s.recording = some b)
    (hr : st1.history = some r) :
    p.functions = g1 ∧
    (b = true →
      runPipe p (reset st1 s) o now =
        ({ reset st1 s with
            store := (st1.store.set r
              (jset (st1.store.getD r []) (jsRound now)
                (trigger, pipeKey p o))) },
          [Effect.invoke h s.event_information])) ∧
    (b = false →
      runPipe p (reset st1 s) o now
        = (reset st1 s, [Effect.invoke h s.event_information])) := by
  have hp : p = ⟨g1, trigger, false, none, false⟩ := by
    simp [makePipe, hg1] at hmk
    exact hmk.symm
  subst hp
  refine ⟨rfl, ?_, ?_⟩
  · intro hbtrue
    subst hbtrue
    simp [runPipe, hb, hr, hrec, reset, callEvent, evTruthy]
  · intro hbfalse
    subst hbfalse
    simp [runPipe, hb, hr, hrec, reset, callEvent, evTruthy]

/-- C8 witness: a pipe made before `reset settingsC8` (which rebinds code 37
to handler 7) still invokes the old handler 4 afterwards, recording into the
current history. -/
theorem pipe_captures_group_witness :
    runPipe pipeC8 (reset stC8 settingsC8) occ37 1
      = ({ reset stC8 settingsC8 with store := [[(1, ("g", "37"))]] },
          [Effect.invoke 4 none]) := by
  have h := pipe_captures_group stC8 settingsC8 "g" [("37", some 4)] pipeC8
    occ37 1 4 0 true (by decide) rfl (by decide) rfl rfl
  rw [h.2.1 rfl]
  decide

/-- Helper: the closed form of a successful recording dispatch. -/
theorem runPipe_record (p : Pipe) (st : IWState) (o : Occ) (now : ℚ)
    (r : Nat) (h : Handler)
    (hpd : p.prevent_defaults = false)
    (hb : jget p.functions (pipeKey p o) = some (some h))
    (hr : st.history = some r) (hrec : st.recording = true) :
    runPipe p st o now
      = ({ st with
            store := (st.store.set r
              (jset (st.store.getD r []) (jsRound now)
                (p.trigger, pipeKey p o))) },
          [Effect.invoke h st.event_information]) := by
  simp [runPipe, hpd, hb, hr, hrec, callEvent, evTruthy]

/-- C9: `saveHistory` archives a REFERENCE to the active history, not a
snapshot: after `saveHistory(name)` followed by one successful recorded
dispatch (no restart in between), the history retrieved by `getHistory(name)`
is still identical to the active one and already contains the new entry. -/
theorem saveHistory_archives_reference (st : IWState) (name : String)
    (p : Pipe) (o : Occ) (now : ℚ) (r : Nat) (h : Handler)
    (hname : strIndex name = none)
    (hr : st.history = some r) (hrl : r < st.store.length)
    (hrec : st.recording = true) (hpd : p.prevent_defaults = false)
    (hb : jget p.functions (pipeKey p o) = some (some h)) :
    getHistory ((runPipe p (saveHistory st (some name)) o now).1) (some name)
      = getHistory ((runPipe p (saveHistory st (some name)) o now).1) none ∧
    jget ((getHistory ((runPipe p (saveHistory st (some name)) o now).1)
        none).getD []) (jsRound now)
      = some (p.trigger, pipeKey p o) := by
  have hsave : saveHistory st (some name)
      = { st with
          histories := st.histories ++ [st.history]
          historiesNamed := jset st.historiesNamed name st.history } := by
    simp [saveHistory, hname]
  have hrun := runPipe_record p (saveHistory st (some name)) o now r h hpd hb
    (by rw [hsave]; exact hr) (by rw [hsave]; exact hrec)
  have href : jget (jset st.historiesNamed name st.history) name
      = some st.history := jget_jset_self _ _ _
  have hfinal : (runPipe p (saveHistory st (some name)) o now).1
      = { st with
          histories := st.histories ++ [st.history]
          historiesNamed := jset st.historiesNamed name st.history
          store := (st.store.set r
            (jset (st.store.getD r []) (jsRound now)
              (p.trigger, pipeKey p o))) } := by
    rw [hrun, hsave]
  constructor
  · rw [hfinal]
    simp only [getHistory, getHistoryRef, hname, href]
    rfl
  · rw [hfinal]
    simp only [getHistory, getHistoryRef, hr, Option.map_some', Option.getD_some]
    rw [list_set_getD _ _ _ _ hrl, jget_jset_self]

/-- C9 witness: after `saveHistory "run"` on `stC8` and one recorded dispatch
of code 37 at clock reading 3, the archived history named "run" is the active
history and contains the new entry keyed 3. -/
theorem saveHistory_archives_reference_witness :
    getHistory ((runPipe pipeC8 (saveHistory stC8 (some "run")) occ37 3).1)
        (some "run")
      = getHistory ((runPipe pipeC8 (saveHistory stC8 (some "run")) occ37 3).1)
        none ∧
    jget ((getHistory ((runPipe pipeC8 (saveHistory stC8 (some "run")) occ37
        3).1) none).getD []) 3 = some ("g", "37") := by
  have h := saveHistory_archives_reference stC8 "run" pipeC8 occ37 3 0 4
    (by decide) rfl (by decide) rfl rfl (by decide)
  refine ⟨h.1, ?_⟩
  have h2 := h.2
  rw [show jsRound 3 = 3 by decide] at h2
  rw [h2]
  decide

/-- C10: when two successful recorded dispatches happen at clock readings that
round to the same millisecond, the later `(trigger, code)` pair replaces the
earlier one at that key — the history does not grow. -/
theorem same_millisecond_overwrite (st : IWState) (p1 p2 : Pipe) (o1 o2 : Occ)
    (now1 now2 : ℚ) (r : Nat) (h1 h2 : Handler)
    (hr : st.history = some r) (hrl : r < st.store.length)
    (hrec : st.recording = true)
    (hpd1 : p1.prevent_defaults = false) (hpd2 : p2.prevent_defaults = false)
    (hb1 : jget p1.functions (pipeKey p1 o1) = some (some h1))
    (hb2 : jget p2.functions (pipeKey p2 o2) = some (some h2))
    (hms : jsRound now1 = jsRound now2) :
    jget ((getHistory ((runPipe p2 ((runPipe p1 st o1 now1).1) o2 now2).1)
        none).getD []) (jsRound now2)
      = some (p2.trigger, pipeKey p2 o2) ∧
    ((getHistory ((runPipe p2 ((runPipe p1 st o1 now1).1) o2 now2).1)
        none).getD []).length
      = ((getHistory ((runPipe p1 st o1 now1).1) none).getD []).length := by
  have hrun1 := runPipe_record p1 st o1 now1 r h1 hpd1 hb1 hr hrec
  have hA : (runPipe p1 st o1 now1).1
      = { st with
          store := (st.store.set r
            (jset (st.store.getD r []) (jsRound now1)
              (p1.trigger, pipeKey p1 o1))) } := by
    rw [hrun1]
  have hgetA : ((st.store.set r
        (jset (st.store.getD r []) (jsRound now1)
          (p1.trigger, pipeKey p1 o1)))).getD r []
      = jset (st.store.getD r []) (jsRound now1) (p1.trigger, pipeKey p1 o1) :=
    list_set_getD _ _ _ _ hrl
  have hrun2 := runPipe_record p2 ((runPipe p1 st o1 now1).1) o2 now2 r h2
    hpd2 hb2 (by rw [hA]; exact hr) (by rw [hA]; exact hrec)
  have hB : (runPipe p2 ((runPipe p1 st o1 now1).1) o2 now2).1
      = { st with
          store := ((st.store.set r
              (jset (st.store.getD r []) (jsRound now1)
                (p1.trigger, pipeKey p1 o1))).set r
            (jset (jset (st.store.getD r []) (jsRound now1)
                (p1.trigger, pipeKey p1 o1)) (jsRound now2)
              (p2.trigger, pipeKey p2 o2))) } := by
    rw [hrun2, hA, hgetA]
  have hrlA : r < ((st.store.set r
      (jset (st.store.getD r []) (jsRound now1)
        (p1.trigger, pipeKey p1 o1)))).length := by
    simpa using hrl
  constructor
  · rw [hB]
    simp only [getHistory, getHistoryRef, hr, Option.map_some', Option.getD_some]
    rw [list_set_getD _ _ _ _ hrlA, jget_jset_self]
  · rw [hB, hA]
    simp only [getHistory, getHistoryRef, hr, Option.map_some', Option.getD_some]
    rw [list_set_getD _ _ _ _ hrlA, list_set_getD _ _ _ _ hrl]
    exact jset_length_of_mem _ _ _ _
      (by rw [← hms]; exact jget_jset_self _ _ _)

/-- C10 witness: two recorded dispatches of code 37 at readings 1/4 and 1/3
(both rounding to 0) leave a single entry holding the later pair. -/
theorem same_millisecond_overwrite_witness :
    jget ((getHistory ((runPipe pipeC8 ((runPipe pipeC8 stC8 occ37
        (1/4)).1) occ37 (1/3)).1) none).getD []) (jsRound (1/3))
      = some ("g", "37") ∧
    ((getHistory ((runPipe pipeC8 ((runPipe pipeC8 stC8 occ37 (1/4)).1)
        occ37 (1/3)).1) none).getD []).length
      = ((getHistory ((runPipe pipeC8 stC8 occ37 (1/4)).1) none).getD
          []).length := by
  have h := same_millisecond_overwrite stC8 pipeC8 pipeC8 occ37 occ37
    (1/4) (1/3) 0 4 4 rfl (by decide) rfl rfl rfl (by decide) (by decide)
    (by decide)
  refine ⟨?_, h.2⟩
  rw [h.1]
  decide

end Claims
